import Mathlib

/-!
Shallow embedding of the progressive-overload recommendation and analytics
engine found in `src/frontend/pages/index.tsx` of the tracker repository.
JavaScript numbers are modelled as rationals (`ℚ`); `undefined` is modelled
with `Option`; `Math.round` rounds half toward positive infinity, which is
`⌊x + 1/2⌋` on rationals.  All definitions are translated from the source
file; definitions written from the specification's words (for refinement
comparisons) say so in their doc comment.
-/

namespace GymTracker

/-- JavaScript `Math.round`: round half toward positive infinity. -/
def mathRound (q : ℚ) : ℤ := ⌊q + 1/2⌋

/-- Source `roundToHalf` from index.tsx line 894: `Math.round(n * 2) / 2`. -/
def roundToHalf (n : ℚ) : ℚ := (mathRound (n * 2) : ℚ) / 2

/-- Rounding to 2 decimals, inlined in `adjustPoTarget` (index.tsx line 921)
as `Math.round(x * 100) / 100`. -/
def roundTo2 (q : ℚ) : ℚ := (mathRound (q * 100) : ℚ) / 100

/-- JavaScript `a || b` on a number `a` that is present: `0` is falsy. -/
def jsOrQ (a b : ℚ) : ℚ := if a = 0 then b else a

/-- JavaScript `a || b` where `a` may be `undefined` (modelled `none`) and
`0` is falsy. -/
def jsOrNum (a : Option ℚ) (b : ℚ) : ℚ :=
  match a with
  | none => b
  | some x => if x = 0 then b else x

/-- JavaScript `a || b` on an optional string; the empty string is falsy. -/
def jsOrStr (a : Option String) (b : String) : String :=
  match a with
  | none => b
  | some s => if s = "" then b else s

/-- The `UserProfile` shape passed around index.tsx; fields the code reads
with `||` fallbacks are optional. -/
structure UserProfileJs where
  sex : Option String
  age : Option ℚ
  weightKg : Option ℚ
  heightCm : Option ℚ
  current_weight_kg : Option ℚ
  height_cm : Option ℚ

/-- Source `calculateMaintenanceCalories` (index.tsx lines 521-537): Mifflin-St Jeor
BMR with `||` default fallbacks, times the fixed activity factor 1.55,
rounded with `Math.round`. -/
def calculateMaintenanceCalories (profile : UserProfileJs) : ℤ :=
  let weight := jsOrNum profile.current_weight_kg (jsOrNum profile.weightKg 70)
  let height := jsOrNum profile.height_cm (jsOrNum profile.heightCm 175)
  let age := jsOrNum profile.age 25
  let sex := jsOrStr profile.sex "male"
  let bmr : ℚ :=
    if sex = "male" then 10 * weight + 6.25 * height - 5 * age + 5
    else 10 * weight + 6.25 * height - 5 * age - 161
  mathRound (bmr * 1.55)

/-- The per-exercise bodyweight multiplier table of
`computeInitialWeightForExercise` (index.tsx lines 542-570); unknown
exercises default to 0.25. -/
def baselineFactor (exercise : String) : ℚ :=
  if exercise = "Incline Dumbbell Press" then 0.35
  else if exercise = "Smith Machine Press" then 0.6
  else if exercise = "Pec Deck / Machine Fly" then 0.25
  else if exercise = "Cable Fly (Low-to-High)" then 0.2
  else if exercise = "Romanian Deadlift" then 1.1
  else if exercise = "Bent-over Row" then 0.7
  else if exercise = "Lat Pulldown" then 0.6
  else if exercise = "Seated Cable Row" then 0.6
  else if exercise = "Leg Extension" then 0.45
  else if exercise = "Smith Machine Squat" then 1.2
  else if exercise = "Smith Machine Lunges" then 0.6
  else if exercise = "Seated Leg Curl" then 0.4
  else if exercise = "Standing Calf Raise" then 0.25
  else if exercise = "Overhead Press" then 0.45
  else if exercise = "Lateral Raises" then 0.08
  else if exercise = "Front Raises" then 0.08
  else if exercise = "Rear Delt Fly" then 0.12
  else if exercise = "Barbell Curl" then 0.18
  else if exercise = "Dumbbell Hammer Curl" then 0.12
  else if exercise = "Triceps Pushdown" then 0.12
  else if exercise = "Overhead Triceps Extension" then 0.12
  else 0.25

/-- Source `computeInitialWeightForExercise` (index.tsx lines 539-575):
`raw = max(2.5, bw * factor * 1.08)` then `Math.round(raw * 2) / 2`,
with `bw = profile.weightKg || 70`. -/
def computeInitialWeightForExercise (exercise : String) (profile : UserProfileJs) : ℚ :=
  let bw := jsOrNum profile.weightKg 70
  let factor := baselineFactor exercise
  let raw := max 2.5 (bw * factor * 1.08)
  (mathRound (raw * 2) : ℚ) / 2

/-- The compound-exercise list in `seedPoForExercise` (index.tsx line 579). -/
def compounds : List String :=
  ["Incline Dumbbell Press", "Smith Machine Press", "Romanian Deadlift",
   "Bent-over Row", "Smith Machine Squat", "Overhead Press"]

/-- Source `seedPoForExercise` (index.tsx lines 577-582): compounds seed at 0.5
kg/week, everything else at 0.25; the profile argument is unused. -/
def seedPoForExercise (exercise : String) (_profile : UserProfileJs) : ℚ :=
  if compounds.contains exercise then 0.5 else 0.25

/-- The per-user PO-target map, `Record<string, number>` in the source;
an absent key is `none`. -/
def PoMap : Type := String → Option ℚ

/-- The JS spread-update `{ ...m, [k]: v }`. -/
def mapSet (m : PoMap) (k : String) (v : ℚ) : PoMap :=
  fun e => if e = k then some v else m e

/-- Source `exerciseGroups` (index.tsx lines 51-86), in object insertion order. -/
def exerciseGroups : List (String × List String) :=
  [("Chest",
    ["Incline Dumbbell Press", "Smith Machine Press", "Pec Deck / Machine Fly",
     "Cable Fly (Low-to-High)", "Lateral Raises", "Shoulder Press"]),
   ("Back",
    ["Romanian Deadlift", "Bent-over Row", "Lat Pulldown", "Seated Cable Row"]),
   ("Legs",
    ["Leg Extension", "Smith Machine Squat", "Romanian Deadlift",
     "Smith Machine Lunges", "Seated Leg Curl", "Standing Calf Raise"]),
   ("Shoulders & Arms",
    ["Overhead Press", "Lateral Raises", "Front Raises", "Rear Delt Fly",
     "Barbell Curl", "Dumbbell Hammer Curl", "Triceps Pushdown",
     "Overhead Triceps Extension"])]

/-- Source `baselinePoTargets` (index.tsx lines 602-610): seed every exercise of
every group into a fresh map. -/
def baselinePoTargets (profile : UserProfileJs) : PoMap :=
  ((exerciseGroups.map Prod.snd).flatten).foldl
    (fun m ex => mapSet m ex (seedPoForExercise ex profile)) (fun _ => none)

/-- Source `setPoTarget` (index.tsx lines 873-876): writes the given kg/week value
into the PO-target map unconditionally (then persists the map). -/
def setPoTarget (poTargets : PoMap) (exercise : String) (kgPerWeek : ℚ) : PoMap :=
  mapSet poTargets exercise kgPerWeek

/-- The recommendation payload for one exercise, collapsing the optional
`ai`/`rule` sub-objects of index.tsx to their numeric fields. -/
structure Recommendation where
  aiWeight : Option ℚ
  aiReps : Option ℚ
  ruleWeight : Option ℚ
  ruleReps : Option ℚ

/-- The `recs` state: `Record<string, Recommendation>`. -/
def RecMap : Type := String → Option Recommendation

/-- The base-weight resolution of `computePoSuggestion` (index.tsx lines
900-904): `(ai_weight || recommended_weight)` and, unless that is a
positive number, the seeded initial weight for the current profile. -/
def resolveBaseWeight (recs : RecMap) (profile : UserProfileJs) (exercise : String) : ℚ :=
  let rec' := recs exercise
  let baseFromRec : Option ℚ :=
    match rec'.bind Recommendation.aiWeight with
    | some x => if x = 0 then rec'.bind Recommendation.ruleWeight else some x
    | none => rec'.bind Recommendation.ruleWeight
  match baseFromRec with
  | some x => if 0 < x then x else computeInitialWeightForExercise exercise profile
  | none => computeInitialWeightForExercise exercise profile

/-- The PO-target resolution of `computePoSuggestion` (index.tsx line 905):
`(overridePoTarget ?? poTargets[exercise]) ?? 0`. -/
def resolvePoTarget (overridePoTarget : Option ℚ) (poTargets : PoMap) (exercise : String) : ℚ :=
  ((overridePoTarget.orElse fun _ => poTargets exercise).getD 0)

/-- Source `computePoSuggestion` (index.tsx lines 898-912): distribute the PO target
across sets with a 0.15-per-set decay bias toward the first set, then round
to the nearest half kilogram (`roundToHalf(suggested || 0)`). -/
def computePoSuggestion (recs : RecMap) (profile : UserProfileJs) (poTargets : PoMap)
    (exercise : String) (setNumber setsCount : ℚ) (overridePoTarget : Option ℚ) : ℚ :=
  let base := resolveBaseWeight recs profile exercise
  let po := resolvePoTarget overridePoTarget poTargets exercise
  let perSet := po / max 1 setsCount
  let bias := max 0 (1 - (setNumber - 1) * 0.15)
  let suggested := base + perSet * bias
  roundToHalf (jsOrQ suggested 0)

/-- Source `computePoReps` (index.tsx lines 1001-1005):
`ai_reps || recommended_reps || 6`. -/
def computePoReps (recs : RecMap) (exercise : String) : ℚ :=
  jsOrNum ((recs exercise).bind Recommendation.aiReps)
    (jsOrNum ((recs exercise).bind Recommendation.ruleReps) 6)

/-- The per-set subjective feedback enumeration. -/
inductive Feedback
  | too_easy
  | on_target
  | too_hard
deriving DecidableEq, Repr

/-- The current PO value read by `adjustPoTarget` (index.tsx line 920):
`poTargets[exercise] ?? seedPoForExercise(exercise, getUserProfile())`. -/
def currentPo (poTargets : PoMap) (profile : UserProfileJs) (exercise : String) : ℚ :=
  (poTargets exercise).getD (seedPoForExercise exercise profile)

/-- Result of `adjustPoTarget`: the (possibly) updated map, the returned
value, and whether `persistPoTargets` was invoked. -/
structure AdjustResult where
  poTargets : PoMap
  ret : ℚ
  persisted : Bool

/-- Source `adjustPoTarget` (index.tsx lines 919-927): clamp the rounded delta at 0
and persist the updated map, but only when `delta !== 0`; for a zero delta
nothing is written and the unmodified current value is returned. -/
def adjustPoTarget (poTargets : PoMap) (profile : UserProfileJs)
    (exercise : String) (delta : ℚ) : AdjustResult :=
  let current := currentPo poTargets profile exercise
  let nextVal := max 0 (roundTo2 (current + delta))
  if delta ≠ 0 then
    { poTargets := mapSet poTargets exercise nextVal, ret := nextVal, persisted := true }
  else
    { poTargets := poTargets, ret := current, persisted := false }

/-- The delta chosen by `handleSetFeedback` (index.tsx lines 939-941). -/
def feedbackDelta : Feedback → ℚ
  | .too_easy => 0.25
  | .too_hard => -0.25
  | .on_target => 0

/-- The PO-target update performed by `handleSetFeedback` for one feedback
button press: `adjustPoTarget` with the feedback's delta. -/
def applyFeedback (poTargets : PoMap) (profile : UserProfileJs)
    (exercise : String) (fb : Feedback) : AdjustResult :=
  adjustPoTarget poTargets profile exercise (feedbackDelta fb)

/-- Source `feedbackToIntensity` (index.tsx lines 929-933). -/
def feedbackToIntensity : Feedback → ℚ
  | .too_easy => 6
  | .too_hard => 9
  | .on_target => 7

/-- Source `dayTypes` (index.tsx line 49): the fixed Monday-first weekly split. -/
def dayTypes : List String :=
  ["Chest", "Legs", "Rest", "Back", "Shoulders & Arms", "Rest", "Rest"]

/-- The scheduled day type of the calendar day `d` days before today, where
`today` is today's Monday-based weekday index (`(getDay() + 6) % 7` in the
source). -/
def dayTypeAt (today : ℕ) (d : ℕ) : String :=
  dayTypes.getD (((today : ℤ) - (d : ℤ)).emod 7).toNat ""

/-- The backward walk of the streak `useEffect` (index.tsx lines 345-361):
`fuel` counts the remaining loop iterations (365 at the start), `count` is
the accumulator, `d` the current days-ago offset.  Rest days are skipped;
a finished day increments the count; any other day stops the walk.  The
skipped-sessions map is not consulted by this computation. -/
def streakLoop (today : ℕ) (finished : ℕ → Bool) : ℕ → ℕ → ℕ → ℕ
  | 0, count, _ => count
  | fuel + 1, count, d =>
    if dayTypeAt today d = "Rest" then streakLoop today finished fuel count (d + 1)
    else if finished d then streakLoop today finished fuel (count + 1) (d + 1)
    else count

/-- The current streak computed by the streak `useEffect`: the backward walk
over the last 365 days starting today. -/
def computeStreak (today : ℕ) (finished : ℕ → Bool) : ℕ :=
  streakLoop today finished 365 0 0

/-- Modelled from the spec: the streak walk as the specification describes
it, in which a day explicitly marked skipped (and not finished, and not a
Rest day) is treated like a Rest day — the walk skips over it instead of
stopping.  This definition exists only to compare the specified behaviour
with `computeStreak`; it is not in the source. -/
def streakSpecLoop (today : ℕ) (finished skipped : ℕ → Bool) : ℕ → ℕ → ℕ → ℕ
  | 0, count, _ => count
  | fuel + 1, count, d =>
    if dayTypeAt today d = "Rest" then streakSpecLoop today finished skipped fuel count (d + 1)
    else if finished d then streakSpecLoop today finished skipped fuel (count + 1) (d + 1)
    else if skipped d then streakSpecLoop today finished skipped fuel count (d + 1)
    else count

/-- Modelled from the spec: current streak with skipped days treated as
Rest (see `streakSpecLoop`). -/
def computeStreakSpec (today : ℕ) (finished skipped : ℕ → Bool) : ℕ :=
  streakSpecLoop today finished skipped 365 0 0

/-- Number of non-Rest (training) days among the `j` calendar days at
offsets `d, d+1, …, d+j-1` before today; used to characterise where the
streak walk stops. -/
def trainCount (today : ℕ) : ℕ → ℕ → ℕ
  | _, 0 => 0
  | d, j + 1 => (if dayTypeAt today d = "Rest" then 0 else 1) + trainCount today (d + 1) j

/-- Source `milestones` (index.tsx line 377). -/
def milestones : List ℕ := [3, 7, 14, 30]

/-- The milestone-celebration `useEffect` (index.tsx lines 376-387), run
over a whole trajectory of successive streak values while threading the
last-celebrated watermark: each run fires (and raises the watermark to the
current streak) exactly when the current streak is a member of
`milestones` and strictly exceeds the watermark. -/
def celebrateRun (last : ℕ) : List ℕ → List ℕ
  | [] => []
  | s :: rest =>
    if milestones.contains s ∧ last < s then s :: celebrateRun s rest
    else celebrateRun last rest

/-- One set row in the active session (`SetEntry` in index.tsx): weight and
reps are `''` (modelled `none`) until the user types a number. -/
structure SetEntry where
  set_number : ℚ
  weight : Option ℚ
  reps : Option ℚ
  feedback : Option Feedback

/-- One exercise row of the session (`ExerciseRow` in index.tsx). -/
structure ExerciseRow where
  exercise : String
  setsCount : ℚ
  sets : List SetEntry

/-- One enriched set as built by `finishSession` (index.tsx lines 1036-1050). -/
structure EnrichedSet where
  exercise : String
  set_number : ℚ
  weight : Option ℚ
  reps : Option ℚ
  intensity : ℚ
  rec_weight : ℚ
  rec_reps : ℚ
  feedback : Feedback

/-- The per-set enrichment of `finishSession`: capture the recommendations
shown for this set alongside the actual numbers. -/
def enrichSet (recs : RecMap) (profile : UserProfileJs) (poTargets : PoMap)
    (r : ExerciseRow) (s : SetEntry) : EnrichedSet :=
  let fb := s.feedback.getD .on_target
  { exercise := r.exercise
    set_number := s.set_number
    weight := s.weight
    reps := s.reps
    intensity := feedbackToIntensity fb
    rec_weight := computePoSuggestion recs profile poTargets r.exercise s.set_number r.setsCount none
    rec_reps := computePoReps recs r.exercise
    feedback := fb }

/-- The malformedness test of `finishSession` (index.tsx line 1050): a set
is kept only when both weight and reps were entered
(`s.weight !== '' && s.reps !== ''`). -/
def hasWeightAndReps (s : SetEntry) : Bool :=
  s.weight.isSome && s.reps.isSome

/-- Source `enrichedSets` of `finishSession` (index.tsx lines 1036-1050): flatten
all rows to enriched sets, then drop the sets missing a weight or reps. -/
def enrichedSets (recs : RecMap) (profile : UserProfileJs) (poTargets : PoMap)
    (rows : List ExerciseRow) : List EnrichedSet :=
  (rows.flatMap fun r => r.sets.map (enrichSet recs profile poTargets r)).filter
    (fun s => s.weight.isSome && s.reps.isSome)

/-- The submission guard of `finishSession` (index.tsx lines 1052-1055):
the POST happens exactly when at least one enriched set remains. -/
def finishSessionSubmits (recs : RecMap) (profile : UserProfileJs) (poTargets : PoMap)
    (rows : List ExerciseRow) : Bool :=
  !(enrichedSets recs profile poTargets rows).isEmpty

/-! ### Helper lemmas on the rounding primitives -/

theorem mathRound_mono {a b : ℚ} (h : a ≤ b) : mathRound a ≤ mathRound b :=
  Int.floor_mono (add_le_add_right h _)

theorem mathRound_le (q : ℚ) : (mathRound q : ℚ) ≤ q + 1/2 :=
  Int.floor_le _

theorem lt_mathRound (q : ℚ) : q - 1/2 < (mathRound q : ℚ) := by
  have := Int.sub_one_lt_floor (q + 1/2)
  unfold mathRound
  linarith

theorem mathRound_intCast (k : ℤ) : mathRound (k : ℚ) = k := by
  unfold mathRound
  rw [add_comm, Int.floor_add_int]
  norm_num

theorem roundToHalf_mono {a b : ℚ} (h : a ≤ b) : roundToHalf a ≤ roundToHalf b := by
  unfold roundToHalf
  have := mathRound_mono (mul_le_mul_of_nonneg_right h (by norm_num : (0:ℚ) ≤ 2))
  have : ((mathRound (a * 2) : ℚ)) ≤ ((mathRound (b * 2) : ℚ)) := by exact_mod_cast this
  linarith

theorem roundTo2_le (q : ℚ) : roundTo2 q ≤ q + 1/200 := by
  unfold roundTo2
  have := mathRound_le (q * 100)
  linarith

theorem lt_roundTo2 (q : ℚ) : q - 1/200 < roundTo2 q := by
  unfold roundTo2
  have := lt_mathRound (q * 100)
  linarith

theorem roundTo2_nonneg {q : ℚ} (h : 0 ≤ q) : 0 ≤ roundTo2 q := by
  have h0 : mathRound (0 : ℚ) = 0 := by
    simpa using mathRound_intCast 0
  have h1 : (0 : ℤ) ≤ mathRound (q * 100) := by
    have := mathRound_mono (by linarith : (0:ℚ) ≤ q * 100)
    omega
  have h2 : (0 : ℚ) ≤ (mathRound (q * 100) : ℚ) := by exact_mod_cast h1
  unfold roundTo2
  linarith

theorem roundTo2_intCast_div (k : ℤ) : roundTo2 ((k : ℚ) / 100) = (k : ℚ) / 100 := by
  have h : (k : ℚ) / 100 * 100 = (k : ℚ) := div_mul_cancel₀ _ (by norm_num)
  unfold roundTo2
  rw [h, mathRound_intCast]

theorem jsOrQ_zero (s : ℚ) : jsOrQ s 0 = s := by
  unfold jsOrQ
  split <;> simp_all

theorem pos_ite {c : Prop} [Decidable c] {a b : ℚ} (ha : 0 < a) (hb : 0 < b) :
    0 < if c then a else b := by
  split <;> assumption

theorem baselineFactor_pos (exercise : String) : 0 < baselineFactor exercise := by
  rw [baselineFactor]
  repeat' apply pos_ite
  all_goals norm_num

/-! ### C2 -/

/-- C2: for every profile with positive weight, height and age and a sex in
{male, female}, the resolved maintenance calories equal
`round(bmr * 1.55)` with the Mifflin-St Jeor `bmr` (male offset `+5`,
female offset `-161`). -/
theorem C2_maintenance_matches_formula (p : UserProfileJs) (w h a : ℚ)
    (hw : p.current_weight_kg = some w) (hwpos : 0 < w)
    (hh : p.height_cm = some h) (hhpos : 0 < h)
    (ha : p.age = some a) (hapos : 0 < a)
    (hs : p.sex = some "male" ∨ p.sex = some "female") :
    calculateMaintenanceCalories p =
      mathRound ((10 * w + 6.25 * h - 5 * a +
        (if p.sex = some "male" then 5 else -161)) * 1.55) := by
  rcases hs with hs | hs <;>
    simp +decide [calculateMaintenanceCalories, jsOrNum, jsOrStr, hw, hh, ha, hs,
      hwpos.ne', hhpos.ne', hapos.ne'] <;>
    ring_nf

/-- C2 witness: the male 70 kg / 175 cm / age 25 profile resolves to
exactly 2594 kcal. -/
theorem C2_witness :
    calculateMaintenanceCalories
        ⟨some "male", some 25, none, none, some 70, some 175⟩ = 2594 := by
  rw [C2_maintenance_matches_formula _ 70 175 25 rfl (by norm_num) rfl (by norm_num)
    rfl (by norm_num) (Or.inl rfl)]
  norm_num [mathRound]

/-! ### C6 -/

/-- C6: for a fixed exercise the seeded initial weight is monotonically
non-decreasing in the profile's (positive) body weight, and for every
profile whatsoever the result is at least 2.5 kg. -/
theorem C6_initial_weight_monotone_and_floor (exercise : String)
    (p : UserProfileJs) (w1 w2 : ℚ) (h1 : 0 < w1) (h12 : w1 ≤ w2) :
    computeInitialWeightForExercise exercise { p with weightKg := some w1 } ≤
      computeInitialWeightForExercise exercise { p with weightKg := some w2 } ∧
    ∀ q : UserProfileJs, 2.5 ≤ computeInitialWeightForExercise exercise q := by
  constructor
  · have h2 : 0 < w2 := lt_of_lt_of_le h1 h12
    simp only [computeInitialWeightForExercise, jsOrNum, h1.ne', h2.ne', if_false]
    have hf := (baselineFactor_pos exercise).le
    have hmul : w1 * baselineFactor exercise * 1.08 ≤ w2 * baselineFactor exercise * 1.08 := by
      have := mul_le_mul_of_nonneg_right h12 hf
      nlinarith
    have hmax : max 2.5 (w1 * baselineFactor exercise * 1.08) ≤
        max 2.5 (w2 * baselineFactor exercise * 1.08) :=
      max_le_max le_rfl hmul
    have hr := mathRound_mono (mul_le_mul_of_nonneg_right hmax (by norm_num : (0:ℚ) ≤ 2))
    have hcast : ((mathRound (max 2.5 (w1 * baselineFactor exercise * 1.08) * 2) : ℤ) : ℚ) ≤
        ((mathRound (max 2.5 (w2 * baselineFactor exercise * 1.08) * 2) : ℤ) : ℚ) := by
      exact_mod_cast hr
    linarith
  · intro q
    simp only [computeInitialWeightForExercise]
    have hraw : (2.5 : ℚ) ≤ max 2.5 (jsOrNum q.weightKg 70 * baselineFactor exercise * 1.08) :=
      le_max_left _ _
    have h55 : mathRound ((5:ℤ) : ℚ) = 5 := mathRound_intCast 5
    have h5 : (5 : ℤ) ≤
        mathRound (max 2.5 (jsOrNum q.weightKg 70 * baselineFactor exercise * 1.08) * 2) := by
      have := mathRound_mono
        (by push_cast; linarith :
          ((5:ℤ) : ℚ) ≤ max 2.5 (jsOrNum q.weightKg 70 * baselineFactor exercise * 1.08) * 2)
      omega
    have hcast : ((5 : ℤ) : ℚ) ≤
        (mathRound (max 2.5 (jsOrNum q.weightKg 70 * baselineFactor exercise * 1.08) * 2) : ℚ) := by
      exact_mod_cast h5
    push_cast at hcast
    linarith

/-- C6 witness: at 60 kg versus 80 kg body weight the seeded squat weight
does not decrease, and it is at least 2.5 kg. -/
theorem C6_witness :
    computeInitialWeightForExercise "Smith Machine Squat"
        ⟨none, none, some 60, none, none, none⟩ ≤
      computeInitialWeightForExercise "Smith Machine Squat"
        ⟨none, none, some 80, none, none, none⟩ ∧
    2.5 ≤ computeInitialWeightForExercise "Smith Machine Squat"
        ⟨none, none, some 60, none, none, none⟩ := by
  have h := C6_initial_weight_monotone_and_floor "Smith Machine Squat"
    ⟨none, none, some 60, none, none, none⟩ 60 80 (by norm_num) (by norm_num)
  exact ⟨h.1, h.2 _⟩

/-! ### C10 -/

/-- C10: `computePoSuggestion` is total at `set_count = 0`: the division is
guarded by `max(1, set_count)`, so the result is defined and equals the
rounded value of `base + po_target * bias`. -/
theorem C10_suggestion_total_at_zero_sets (recs : RecMap) (profile : UserProfileJs)
    (poTargets : PoMap) (exercise : String) (setNumber : ℚ)
    (overridePoTarget : Option ℚ) :
    computePoSuggestion recs profile poTargets exercise setNumber 0 overridePoTarget =
      roundToHalf (resolveBaseWeight recs profile exercise +
        resolvePoTarget overridePoTarget poTargets exercise *
          max 0 (1 - (setNumber - 1) * 0.15)) := by
  simp only [computePoSuggestion]
  rw [jsOrQ_zero]
  rw [max_eq_left (by norm_num : (0:ℚ) ≤ 1), div_one]

/-! ### C1 -/

/-- C1: with the recommendation environment, profile, PO-target map and
override fixed (hence the same base weight and PO target for every set of
the exercise), a positive PO target and a set count of at least 1, the
suggestion at set number 1 is at least the suggestion at any set number
`k > 1`: the 0.15-per-set decay bias never produces an increasing
sequence. -/
theorem C1_first_set_suggestion_ge (recs : RecMap) (profile : UserProfileJs)
    (poTargets : PoMap) (exercise : String) (overridePoTarget : Option ℚ)
    (k setsCount : ℚ) (hc : 1 ≤ setsCount) (hk : 1 < k)
    (hpo : 0 < resolvePoTarget overridePoTarget poTargets exercise) :
    computePoSuggestion recs profile poTargets exercise k setsCount overridePoTarget ≤
      computePoSuggestion recs profile poTargets exercise 1 setsCount overridePoTarget := by
  simp only [computePoSuggestion]
  rw [jsOrQ_zero, jsOrQ_zero]
  apply roundToHalf_mono
  have hdenom : (0:ℚ) < max 1 setsCount := lt_of_lt_of_le one_pos (le_max_left _ _)
  have hper : 0 ≤ resolvePoTarget overridePoTarget poTargets exercise / max 1 setsCount :=
    div_nonneg hpo.le hdenom.le
  have hbias1 : max 0 (1 - ((1:ℚ) - 1) * 0.15) = 1 := by norm_num
  have hbiask : max 0 (1 - (k - 1) * 0.15) ≤ 1 := by
    apply max_le <;> nlinarith
  rw [hbias1]
  have := mul_le_mul_of_nonneg_left hbiask hper
  linarith

/-- C1 witness: a concrete instance at set numbers 1 and 3, four sets,
PO target 0.5 kg/week, no recommendation data (seeded base weight). -/
theorem C1_witness :
    computePoSuggestion (fun _ => none) ⟨none, none, some 70, none, none, none⟩
        (fun _ => none) "Overhead Press" 3 4 (some 0.5) ≤
      computePoSuggestion (fun _ => none) ⟨none, none, some 70, none, none, none⟩
        (fun _ => none) "Overhead Press" 1 4 (some 0.5) :=
  C1_first_set_suggestion_ge _ _ _ _ _ 3 4 (by norm_num) (by norm_num)
    (by norm_num [resolvePoTarget, Option.orElse])

/-! ### C3 -/

/-- The stored value after `mapSet` is read back unchanged. -/
theorem currentPo_mapSet (m : PoMap) (p : UserProfileJs) (ex : String) (v : ℚ) :
    currentPo (mapSet m ex v) p ex = v := by
  simp [currentPo, mapSet]

/-- C3: for an exercise whose current PO target is non-negative, applying
`too_easy` feedback and then `too_hard` feedback returns the stored PO
target to its original value within the 0.01 rounding tolerance. -/
theorem C3_too_easy_then_too_hard_roundtrip (m : PoMap) (p : UserProfileJs)
    (ex : String) (h0 : 0 ≤ currentPo m p ex) :
    |currentPo
        (applyFeedback
          (applyFeedback m p ex .too_easy).poTargets p ex .too_hard).poTargets p ex -
      currentPo m p ex| ≤ 0.01 := by
  have h14 : (0.25 : ℚ) ≠ 0 := by norm_num
  have hn14 : (-0.25 : ℚ) ≠ 0 := by norm_num
  set c := currentPo m p ex with hc
  have hv1nn : 0 ≤ roundTo2 (c + 0.25) := roundTo2_nonneg (by linarith)
  have hstep1 : (applyFeedback m p ex .too_easy).poTargets =
      mapSet m ex (roundTo2 (c + 0.25)) := by
    simp [applyFeedback, feedbackDelta, adjustPoTarget, h14, ← hc, max_eq_right hv1nn]
  have hread1 : currentPo (applyFeedback m p ex .too_easy).poTargets p ex =
      roundTo2 (c + 0.25) := by
    rw [hstep1, currentPo_mapSet]
  have hstep2 : (applyFeedback (mapSet m ex (roundTo2 (c + 0.25))) p ex .too_hard).poTargets =
      mapSet (mapSet m ex (roundTo2 (c + 0.25))) ex
        (max 0 (roundTo2 (roundTo2 (c + 0.25) - 0.25))) := by
    simp [applyFeedback, feedbackDelta, adjustPoTarget, hn14, currentPo_mapSet,
      ← sub_eq_add_neg]
  have hread2 : currentPo
      (applyFeedback (applyFeedback m p ex .too_easy).poTargets p ex .too_hard).poTargets p ex =
      max 0 (roundTo2 (roundTo2 (c + 0.25) - 0.25)) := by
    rw [hstep1, hstep2, currentPo_mapSet]
  rw [hread2]
  -- the second rounding is the identity: its input is a multiple of 1/100
  have hmult : roundTo2 (c + 0.25) - 0.25 =
      ((mathRound ((c + 0.25) * 100) - 25 : ℤ) : ℚ) / 100 := by
    unfold roundTo2
    push_cast
    ring
  have hfix : roundTo2 (roundTo2 (c + 0.25) - 0.25) = roundTo2 (c + 0.25) - 0.25 := by
    rw [hmult, roundTo2_intCast_div]
  rw [hfix]
  have hub := roundTo2_le (c + 0.25)
  have hlb := lt_roundTo2 (c + 0.25)
  rcases le_or_lt 0 (roundTo2 (c + 0.25) - 0.25) with hpos | hneg
  · rw [max_eq_right hpos, abs_le]
    constructor <;> [linarith; linarith]
  · rw [max_eq_left hneg.le, abs_sub_comm, abs_of_nonneg (by linarith)]
    linarith

/-- C3 witness: starting from an empty PO map (seeded current target 0.25
for an isolation exercise), the too-easy/too-hard pair returns to 0.25
exactly. -/
theorem C3_witness :
    |currentPo
        (applyFeedback
          (applyFeedback (fun _ => none) ⟨none, none, none, none, none, none⟩
            "Barbell Curl" .too_easy).poTargets
          ⟨none, none, none, none, none, none⟩ "Barbell Curl" .too_hard).poTargets
        ⟨none, none, none, none, none, none⟩ "Barbell Curl" -
      currentPo (fun _ => none) ⟨none, none, none, none, none, none⟩ "Barbell Curl"| ≤ 0.01 :=
  C3_too_easy_then_too_hard_roundtrip _ _ _
    (by simp +decide [currentPo, seedPoForExercise]; norm_num)

/-! ### C5 -/

/-- C5 counterexample: applying `on_target` feedback does NOT perform a
write to the persisted PO-target map — with a stored target of 0.5 for the
exercise, `adjustPoTarget` takes the `delta !== 0` else-branch, so
`persistPoTargets` is never invoked (`persisted = false`), contradicting
the claim that a confirmed write still happens. -/
theorem C5_counterexample :
    (applyFeedback (fun e => if e = "Overhead Press" then some 0.5 else none)
        ⟨none, none, none, none, none, none⟩ "Overhead Press" .on_target).persisted
      = false := by
  simp [applyFeedback, feedbackDelta, adjustPoTarget]

/-- C5 amended: `on_target` feedback leaves the PO target numerically
unchanged AND performs no write at all: the map is returned untouched, the
current value is handed back, and `persistPoTargets` is not invoked (the
`delta !== 0` guard skips persistence), so no confirmed write is recorded. -/
theorem C5_on_target_is_pure_noop (m : PoMap) (p : UserProfileJs) (ex : String) :
    applyFeedback m p ex .on_target =
      { poTargets := m, ret := currentPo m p ex, persisted := false } := by
  simp [applyFeedback, feedbackDelta, adjustPoTarget]

/-! ### C9 -/

/-- The non-negativity invariant of the PO-target map: every stored value
is at least 0. -/
def NonnegPo (m : PoMap) : Prop := ∀ ex v, m ex = some v → 0 ≤ v

theorem NonnegPo_mapSet {m : PoMap} (hm : NonnegPo m) {v : ℚ} (hv : 0 ≤ v)
    (k : String) : NonnegPo (mapSet m k v) := by
  intro e u hu
  unfold mapSet at hu
  by_cases he : e = k
  · rw [if_pos he] at hu
    injection hu with hu
    exact hu ▸ hv
  · rw [if_neg he] at hu
    exact hm e u hu

theorem seedPoForExercise_nonneg (ex : String) (p : UserProfileJs) :
    0 ≤ seedPoForExercise ex p := by
  unfold seedPoForExercise
  split <;> norm_num

theorem NonnegPo_foldl_seed (p : UserProfileJs) :
    ∀ (l : List String) (m : PoMap), NonnegPo m →
      NonnegPo (l.foldl (fun m ex => mapSet m ex (seedPoForExercise ex p)) m) := by
  intro l
  induction l with
  | nil => intro m hm; exact hm
  | cons hd tl ih =>
    intro m hm
    exact ih _ (NonnegPo_mapSet hm (seedPoForExercise_nonneg hd p) hd)

/-- C9 counterexample: `setPoTarget` performs no clamping — a direct edit
with `-1` (any non-NaN number passes the caller's check) stores a negative
PO target, so the claimed invariant is not preserved by `setPoTarget`. -/
theorem C9_counterexample :
    setPoTarget (fun _ => none) "Bent-over Row" (-1) "Bent-over Row" = some (-1) ∧
    ¬ (0:ℚ) ≤ (-1 : ℚ) := by
  constructor
  · simp [setPoTarget, mapSet]
  · norm_num

/-- C9 amended: initial seeding and feedback-driven adjustment always
preserve the non-negativity invariant of the PO-target map, and a direct
edit through `setPoTarget` preserves it exactly when the value supplied is
itself non-negative — `setPoTarget` performs no clamping of its own. -/
theorem C9_nonneg_invariant_preservation :
    (∀ (m : PoMap) (p : UserProfileJs) (ex : String) (delta : ℚ),
        NonnegPo m → NonnegPo (adjustPoTarget m p ex delta).poTargets) ∧
    (∀ p : UserProfileJs, NonnegPo (baselinePoTargets p)) ∧
    (∀ (m : PoMap) (ex : String) (k : ℚ),
        NonnegPo m → 0 ≤ k → NonnegPo (setPoTarget m ex k)) := by
  refine ⟨?_, ?_, ?_⟩
  · intro m p ex delta hm
    unfold adjustPoTarget
    split
    · exact NonnegPo_mapSet hm (le_max_left _ _) ex
    · exact hm
  · intro p
    unfold baselinePoTargets
    apply NonnegPo_foldl_seed
    intro e v hv
    simp at hv
  · intro m ex k hm hk
    exact NonnegPo_mapSet hm hk ex

/-- C9 witness: a direct edit writing the non-negative value 1 into an
empty map keeps the invariant. -/
theorem C9_witness : NonnegPo (setPoTarget (fun _ => none) "Barbell Curl" 1) :=
  C9_nonneg_invariant_preservation.2.2 (fun _ => none) "Barbell Curl" 1
    (fun e v hv => by simp at hv) (by norm_num)

/-! ### C4 -/

/-- A sample finished-day calendar (offsets in days before a Friday
`today`): today, Tuesday and Monday are finished; Thursday is not. -/
def finSample : ℕ → Bool := fun d => d = 0 || d = 3 || d = 4

/-- The matching skipped-day calendar: Thursday (offset 1) was explicitly
marked skipped. -/
def skipSample : ℕ → Bool := fun d => d = 1

/-- C4 counterexample: with `today` a Friday (Monday-based index 4), the
finished days {Fri, Tue, Mon} and Thursday marked skipped, the code's
streak walk stops at Thursday and yields 1, while the walk the claim
describes (skipped treated as Rest) yields 3 — marking a day skipped does
not make the walk skip over it. -/
theorem C4_counterexample :
    computeStreak 4 finSample = 1 ∧
    computeStreakSpec 4 finSample skipSample = 3 ∧
    computeStreak 4 finSample ≠ computeStreakSpec 4 finSample skipSample := by
  refine ⟨by decide, by decide, by decide⟩

/-- The streak walk, characterised: if every day strictly before offset
`d + j` (relative to start offset `d`) is either a Rest day or finished,
and the day at offset `d + j` is a non-Rest unfinished day, then the walk
starting at offset `d` returns the accumulator plus the number of non-Rest
days in the window — the walk stops at the first unfinished training day,
regardless of any skipped marking (which it never reads). -/
theorem trainCount_succ (today d j : ℕ) :
    trainCount today d (j + 1) =
      (if dayTypeAt today d = "Rest" then 0 else 1) + trainCount today (d + 1) j := rfl

theorem streakLoop_stops (today : ℕ) (finished : ℕ → Bool) :
    ∀ (j fuel count d : ℕ), j < fuel →
      (∀ e, e < j → dayTypeAt today (d + e) = "Rest" ∨ finished (d + e) = true) →
      ¬ dayTypeAt today (d + j) = "Rest" → finished (d + j) = false →
      streakLoop today finished fuel count d = count + trainCount today d j := by
  intro j
  induction j with
  | zero =>
    intro fuel count d hfuel _ hrest hfin
    match fuel, hfuel with
    | fuel + 1, _ =>
      rw [Nat.add_zero] at hrest hfin
      unfold streakLoop
      rw [if_neg hrest, hfin]
      simp [trainCount]
  | succ j ih =>
    intro fuel count d hfuel hbefore hrest hfin
    match fuel, hfuel with
    | fuel + 1, hfuel =>
      have hfuel' : j < fuel := by omega
      have hbefore' : ∀ e, e < j →
          dayTypeAt today (d + 1 + e) = "Rest" ∨ finished (d + 1 + e) = true := by
        intro e he
        have := hbefore (e + 1) (by omega)
        rwa [show d + (e + 1) = d + 1 + e by omega] at this
      have hrest' : ¬ dayTypeAt today (d + 1 + j) = "Rest" := by
        rwa [show d + 1 + j = d + (j + 1) by omega]
      have hfin' : finished (d + 1 + j) = false := by
        rwa [show d + 1 + j = d + (j + 1) by omega]
      unfold streakLoop
      by_cases hdr : dayTypeAt today d = "Rest"
      · rw [if_pos hdr, ih fuel count (d + 1) hfuel' hbefore' hrest' hfin',
          trainCount_succ, if_pos hdr]
        omega
      · have h0 := hbefore 0 (by omega)
        rw [Nat.add_zero] at h0
        have h0f : finished d = true := h0.resolve_left hdr
        rw [if_neg hdr, h0f, if_pos rfl,
          ih fuel (count + 1) (d + 1) hfuel' hbefore' hrest' hfin',
          trainCount_succ, if_neg hdr]
        omega

/-- C4 amended: a day explicitly marked skipped that is not finished and
whose scheduled day type is not Rest BREAKS the streak exactly like an
unmarked missed day: the computation reads only the finished map (the
skipped map is not consulted at all), and the current streak equals the
number of non-Rest days strictly before the first unfinished training
day — whether or not that day is marked skipped. -/
theorem C4_skipped_day_breaks_streak (today : ℕ) (finished : ℕ → Bool) (d : ℕ)
    (hd : d < 365)
    (hrest : ¬ dayTypeAt today d = "Rest")
    (hfin : finished d = false)
    (hbefore : ∀ e, e < d → dayTypeAt today e = "Rest" ∨ finished e = true) :
    computeStreak today finished = trainCount today 0 d := by
  unfold computeStreak
  have := streakLoop_stops today finished d 365 0 0 hd
    (by intro e he; simpa using hbefore e he)
    (by simpa using hrest) (by simpa using hfin)
  simpa using this

/-- C4 witness: on the sample calendar the first unfinished training day is
Thursday (offset 1), and the streak is the single training day before it. -/
theorem C4_witness : computeStreak 4 finSample = trainCount 4 0 1 :=
  C4_skipped_day_breaks_streak 4 finSample 1 (by decide) (by decide) (by decide)
    (by decide)

/-! ### C7 -/

/-- C7 counterexample: a streak whose first computed value is 4 has reached
and passed milestone 3, yet the celebration list is empty — the code fires
only when the streak is exactly equal to a milestone value
(`milestones.includes(streakCurrent)`), so a passed-over milestone never
celebrates, contradicting "the first time the streak reaches or passes
that value". -/
theorem C7_counterexample :
    celebrateRun 0 [4] = [] ∧ 3 ∈ milestones ∧ 3 ≤ 4 := by
  refine ⟨by decide, by decide, by decide⟩

theorem celebrateRun_cons (last s : ℕ) (rest : List ℕ) :
    celebrateRun last (s :: rest) =
      if milestones.contains s ∧ last < s then s :: celebrateRun s rest
      else celebrateRun last rest := by
  rfl

/-- Fired milestones always exceed the incoming watermark, so a value at or
below the watermark can never fire. -/
theorem celebrateRun_not_mem_of_le (v : ℕ) :
    ∀ (traj : List ℕ) (last : ℕ), v ≤ last → v ∉ celebrateRun last traj := by
  intro traj
  induction traj with
  | nil =>
    intro last _ h
    simp [celebrateRun] at h
  | cons s rest ih =>
    intro last hle
    rw [celebrateRun_cons]
    by_cases hc : milestones.contains s ∧ last < s
    · rw [if_pos hc]
      intro hmem
      rcases List.mem_cons.mp hmem with h | h
      · omega
      · exact ih s (by omega) h
    · rw [if_neg hc]
      exact ih last hle

theorem celebrateRun_count_le_one (v : ℕ) :
    ∀ (traj : List ℕ) (last : ℕ), (celebrateRun last traj).count v ≤ 1 := by
  intro traj
  induction traj with
  | nil =>
    intro last
    simp [celebrateRun]
  | cons s rest ih =>
    intro last
    rw [celebrateRun_cons]
    by_cases hc : milestones.contains s ∧ last < s
    · rw [if_pos hc]
      by_cases hv : v = s
      · subst hv
        rw [List.count_cons_self,
          List.count_eq_zero.mpr (celebrateRun_not_mem_of_le v rest v le_rfl)]
      · rw [List.count_cons_of_ne hv]
        exact ih s
    · rw [if_neg hc]
      exact ih last

theorem celebrateRun_mem (x : ℕ) :
    ∀ (traj : List ℕ) (last : ℕ), x ∈ celebrateRun last traj →
      x ∈ milestones ∧ x ∈ traj ∧ last < x := by
  intro traj
  induction traj with
  | nil =>
    intro last h
    simp [celebrateRun] at h
  | cons s rest ih =>
    intro last h
    rw [celebrateRun_cons] at h
    by_cases hc : milestones.contains s ∧ last < s
    · rw [if_pos hc] at h
      rcases List.mem_cons.mp h with h | h
      · subst h
        exact ⟨by simpa using hc.1, List.mem_cons_self _ _, hc.2⟩
      · obtain ⟨h1, h2, h3⟩ := ih s h
        exact ⟨h1, List.mem_cons_of_mem _ h2, by omega⟩
    · rw [if_neg hc] at h
      obtain ⟨h1, h2, h3⟩ := ih last h
      exact ⟨h1, List.mem_cons_of_mem _ h2, h3⟩

/-- C7 amended: over any trajectory of streak values, each milestone value
fires at most once (so in particular it cannot re-fire after the streak
drops below it and climbs back), and anything fired is a milestone value
that the streak was exactly equal to at some point and that strictly
exceeds the initial watermark; a milestone merely passed over (never hit
exactly) does not fire. -/
theorem C7_milestone_fires_at_most_once (last0 : ℕ) (traj : List ℕ) (v : ℕ) :
    (celebrateRun last0 traj).count v ≤ 1 ∧
    (∀ x, x ∈ celebrateRun last0 traj → x ∈ milestones ∧ x ∈ traj ∧ last0 < x) :=
  ⟨celebrateRun_count_le_one v traj last0, fun x hx => celebrateRun_mem x traj last0 hx⟩

/-- C7 witness: on the trajectory 3, 7, 5, 7 the value 7 fires (it is a
milestone, appears in the trajectory, and exceeds the initial watermark 0),
and by the theorem it fires at most once despite being re-attained. -/
theorem C7_witness : 7 ∈ milestones ∧ 7 ∈ [3, 7, 5, 7] ∧ 0 < 7 :=
  (C7_milestone_fires_at_most_once 0 [3, 7, 5, 7] 7).2 7 (by decide)

/-! ### C8 -/

theorem any_eq_not_all_not (l : List SetEntry) (p : SetEntry → Bool) :
    l.any p = !l.all (fun a => !p a) := by
  induction l with
  | nil => rfl
  | cons a t ih => simp [List.any_cons, List.all_cons, ih, Bool.not_and]

theorem isEmpty_append (l l' : List EnrichedSet) :
    (l ++ l').isEmpty = (l.isEmpty && l'.isEmpty) := by
  cases l <;> simp

theorem isEmpty_map (f : SetEntry → EnrichedSet) (l : List SetEntry) :
    (l.map f).isEmpty = l.isEmpty := by
  cases l <;> rfl

theorem isEmpty_filter (p : SetEntry → Bool) (l : List SetEntry) :
    (l.filter p).isEmpty = l.all (fun a => !p a) := by
  induction l with
  | nil => rfl
  | cons a t ih =>
    by_cases h : p a
    · simp [List.filter_cons, h]
    · simp [List.filter_cons, h, ih]

/-- The well-formedness test commutes through enrichment: the enriched set
copies `weight` and `reps` verbatim. -/
theorem hasWeightAndReps_enrichSet (recs : RecMap) (profile : UserProfileJs)
    (poTargets : PoMap) (r : ExerciseRow) (s : SetEntry) :
    ((enrichSet recs profile poTargets r s).weight.isSome &&
      (enrichSet recs profile poTargets r s).reps.isSome) = hasWeightAndReps s := rfl

/-- C8: when a session is finished, exactly the submitted sets missing a
weight or a reps value are excluded from the enriched set list, while every
remaining well-formed set is still enriched and submitted in order; the
session POST is aborted only when no well-formed set remains at all, so a
malformed set never aborts the rest of the submission. -/
theorem C8_malformed_sets_excluded_not_aborting (recs : RecMap)
    (profile : UserProfileJs) (poTargets : PoMap) (rows : List ExerciseRow) :
    enrichedSets recs profile poTargets rows =
      rows.flatMap
        (fun r => (r.sets.filter hasWeightAndReps).map (enrichSet recs profile poTargets r)) ∧
    finishSessionSubmits recs profile poTargets rows =
      rows.any (fun r => r.sets.any hasWeightAndReps) := by
  have hmain : ∀ l : List ExerciseRow,
      (l.flatMap fun r => r.sets.map (enrichSet recs profile poTargets r)).filter
          (fun s => s.weight.isSome && s.reps.isSome) =
        l.flatMap
          (fun r => (r.sets.filter hasWeightAndReps).map (enrichSet recs profile poTargets r)) := by
    intro l
    induction l with
    | nil => rfl
    | cons r rest ih =>
      rw [List.flatMap_cons, List.flatMap_cons, List.filter_append, ih, List.filter_map]
      have hfc : List.filter
            ((fun s : EnrichedSet => s.weight.isSome && s.reps.isSome) ∘
              enrichSet recs profile poTargets r) r.sets =
          List.filter hasWeightAndReps r.sets :=
        List.filter_congr fun s _ => hasWeightAndReps_enrichSet recs profile poTargets r s
      rw [hfc]
  refine ⟨hmain rows, ?_⟩
  unfold finishSessionSubmits enrichedSets
  rw [hmain rows]
  induction rows with
  | nil => rfl
  | cons r rest ih =>
    rw [List.flatMap_cons, isEmpty_append, isEmpty_map, isEmpty_filter, List.any_cons,
      Bool.not_and, ih, any_eq_not_all_not]

end GymTracker
